import Mathlib

/-
  Verification development for the night air-raid vignette (src/main.py).

  The simulation core is embedded shallowly over exact rationals: positions,
  velocities and timestamps are modelled as rationals, every random draw of
  the source (random.uniform, random.choice, random.randint, random.random)
  is threaded explicitly as an input value, and each per-tick block of the
  main loop becomes a pure function on the corresponding state.
-/

namespace WW2

/-! ### Configuration constants (src/main.py lines 17-43) -/

def MAX_PLANES : Nat := 9
def GRAVITY : ℚ := 280
def MAX_BOMBS : Nat := 30
def EXPLOSION_TIME : ℚ := 3/5
def SHAKE_DURATION : ℚ := 3/10
def SHAKE_STRENGTH : ℚ := 9
def MAX_SMOKE : Nat := 220
def AA_SPAWN_RATE : ℚ := 6/5
def AA_MAX_SHOTS : Nat := 6

/-- The local variable hit_window = 0.18 of the burst hit-test block. -/
def hitWindow : ℚ := 9/50

def LOGO_SLIDE_DUR : ℚ := 7/5

/-! ### Entity data model (src/main.py lines 175-206) -/

/-- The original_facing string of a Plane; the source always passes "left". -/
inductive Facing where
  | left : Facing
  | right : Facing
deriving DecidableEq, Inhabited, Repr

/-- Plane dataclass. The pygame sprite is abstracted by its pixel size
    (img_w, img_h), which is all the simulation reads from it. -/
structure Plane where
  img_w : ℚ
  img_h : ℚ
  x : ℚ
  y : ℚ
  vx : ℚ
  next_bomb : ℚ
  original_facing : Facing
  vy : ℚ := 0
  angle : ℚ := 0
  spin : ℚ := 0
  on_fire : Bool := false
  dying : Bool := false
  invuln_until : ℚ := 0
deriving DecidableEq, Inhabited, Repr

/-- Bomb dataclass. -/
structure Bomb where
  x : ℚ
  y : ℚ
  vy : ℚ
  exploded : Bool := false
  start : ℚ := 0
  hit_y : ℚ := 0
deriving DecidableEq, Inhabited, Repr

/-- Smoke dataclass. -/
structure Smoke where
  x : ℚ
  y : ℚ
  r : ℚ
  vy : ℚ
  a : ℚ
  tone : ℤ := 125
deriving DecidableEq, Inhabited, Repr

/-- AAShot dataclass. -/
structure AAShot where
  x : ℚ
  y : ℚ
  vx : ℚ
  vy : ℚ
  target_y : ℚ
  alive : Bool := true
deriving DecidableEq, Inhabited, Repr

/-- AABurst dataclass. -/
structure AABurst where
  x : ℚ
  y : ℚ
  start : ℚ
  radius : ℚ
deriving DecidableEq, Inhabited, Repr

/-- Per-tick frame data read by the simulation blocks: dt and now from the
    frame clock, and the current viewport size. -/
structure Env where
  dt : ℚ
  now : ℚ
  sw : ℚ
  sh : ℚ
deriving DecidableEq, Inhabited, Repr

/-! ### Plane update (src/main.py lines 417-451)

    The random draws consumed by one plane in one tick, given as data:
    emit models random.random() < 0.6; sdx, sdy, sr, svy, sa, stone are the
    smoke-particle draws; lane and off are the recycle draws
    (random.choice(lanes), random.uniform(40, 260)); bombU is
    random.uniform(*BOMB_RATE); wlane and woff are the wrap draws. -/
structure PlaneDraws where
  emit : Bool
  sdx : ℚ := 0
  sdy : ℚ := 0
  sr : ℚ := 5
  svy : ℚ := -16
  sa : ℚ := 130
  stone : ℤ := 75
  lane : ℚ
  off : ℚ
  bombU : ℚ
  wlane : ℚ
  woff : ℚ

/-- Ballistic integration of a dying plane (lines 419-422). -/
def planeFall (e : Env) (p : Plane) : Plane :=
  let vy := p.vy + GRAVITY * e.dt * (6/10)
  { p with vy := vy
         , y := p.y + vy * e.dt
         , x := p.x + p.vx * e.dt * (1/2)
         , angle := p.angle + p.spin * e.dt }

/-- Reset of a fallen plane to a fresh airborne spawn (lines 430-437).
    Every listed field is reset; vx is left as it is. -/
def recyclePlane (e : Env) (d : PlaneDraws) (p : Plane) : Plane :=
  { p with on_fire := false
         , dying := false
         , vy := 0
         , angle := 0
         , spin := 0
         , invuln_until := 0
         , y := d.lane
         , x := if 0 < p.vx then -p.img_w - d.off else e.sw + d.off }

/-- Motion part of the per-plane update (lines 418-439): dying planes fall
    and recycle past the bottom margin, live planes drift horizontally. -/
def planeMoved (e : Env) (d : PlaneDraws) (p : Plane) : Plane :=
  if p.dying = true then
    let q := planeFall e p
    if e.sh + 120 < q.y then recyclePlane e d q else q
  else
    { p with x := p.x + p.vx * e.dt }

/-- Smoke probabilistically emitted by a dying plane (lines 423-429),
    positioned from the plane coordinates updated this tick. -/
def planeMoveSmoke (e : Env) (d : PlaneDraws) (p : Plane) : List Smoke :=
  if p.dying = true ∧ d.emit = true then
    let q := planeFall e p
    [{ x := q.x + p.img_w / 2 + d.sdx
     , y := q.y + p.img_h / 2 + d.sdy
     , r := d.sr, vy := d.svy, a := d.sa, tone := d.stone }]
  else []

/-- Bomb drop check (lines 441-445): a bomb is created only when the timer
    elapsed, the plane is not dying and the pool is below MAX_BOMBS;
    otherwise the request is a silent no-op. -/
def planeBomb (e : Env) (d : PlaneDraws) (p : Plane) (bombs : List Bomb) :
    Plane × List Bomb :=
  if p.next_bomb ≤ e.now ∧ p.dying = false ∧ bombs.length < MAX_BOMBS then
    ({ p with next_bomb := e.now + d.bombU }
    , bombs ++ [{ x := p.x + p.img_w / 2
                , y := p.y + p.img_h * (85/100)
                , vy := 160, exploded := false, start := e.now
                , hit_y := e.sh - 2 }])
  else (p, bombs)

/-- Edge wrap of a live plane (lines 447-451). -/
def planeWrap (e : Env) (d : PlaneDraws) (p : Plane) : Plane :=
  if p.dying = false then
    if 0 < p.vx ∧ e.sw + 60 < p.x then
      { p with x := -p.img_w - d.woff, y := d.wlane }
    else if p.vx < 0 ∧ p.x + p.img_w < -60 then
      { p with x := e.sw + d.woff, y := d.wlane }
    else p
  else p

/-- One plane of the per-tick plane loop: move or fall, maybe drop a bomb
    into the shared pool, then wrap. -/
def planeStepP (e : Env) (d : PlaneDraws) (p : Plane) (bombs : List Bomb) :
    Plane × List Bomb × List Smoke :=
  let p1 := planeMoved e d p
  let sm := planeMoveSmoke e d p
  let pb := planeBomb e d p1 bombs
  (planeWrap e d pb.1, pb.2, sm)

/-- The plane loop (lines 417-451), threading the shared bomb pool through
    the planes in order and collecting emitted smoke. -/
def planesStepAux (e : Env) (pd : ℕ → PlaneDraws) :
    ℕ → List Plane → List Bomb → List Plane × List Bomb × List Smoke
  | _, [], bombs => ([], bombs, [])
  | i, p :: rest, bombs =>
    let r1 := planeStepP e (pd i) p bombs
    let r2 := planesStepAux e pd (i + 1) rest r1.2.1
    (r1.1 :: r2.1, r2.2.1, r1.2.2 ++ r2.2.2)

def planesStep (e : Env) (pd : ℕ → PlaneDraws) (ps : List Plane)
    (bombs : List Bomb) : List Plane × List Bomb × List Smoke :=
  planesStepAux e pd 0 ps bombs

/-! ### Bomb update and camera shake (src/main.py lines 454-467, 533-538) -/

/-- Shake pulse of a bomb explosion (lines 461-462): the expiry is set to
    now + SHAKE_DURATION and the strength grows additively, clamped. -/
def explosionShake (now su ss : ℚ) : ℚ × ℚ :=
  (now + SHAKE_DURATION, min SHAKE_STRENGTH (ss + SHAKE_STRENGTH * (6/10)))

/-- Shake expiry update of a burst hit on a plane (line 515); the strength
    is not part of this update. -/
def burstShakeUntil (now su : ℚ) : ℚ :=
  max su (now + 22/100)

/-- Shake magnitude read each tick (lines 533-538): linear decay of the
    strength over the remaining fraction of SHAKE_DURATION, zero from the
    expiry on. -/
def shakeMag (now su ss : ℚ) : ℚ :=
  if now < su then ss * ((su - now) / SHAKE_DURATION) else 0

/-- Bomb loop (lines 454-467): gravity integration until the impact height,
    explosion with a shake pulse, removal EXPLOSION_TIME after the
    explosion started. Returns the surviving bombs and the shake pair. -/
def bombsAdvance (e : Env) : List Bomb → ℚ → ℚ → List Bomb × ℚ × ℚ
  | [], su, ss => ([], su, ss)
  | b :: rest, su, ss =>
    if b.exploded = false then
      let vy := b.vy + GRAVITY * e.dt
      let y := b.y + vy * e.dt
      if b.hit_y ≤ y then
        let sp := explosionShake e.now su ss
        let r := bombsAdvance e rest sp.1 sp.2
        ({ b with vy := vy, y := y, exploded := true, start := e.now } :: r.1
        , r.2)
      else
        let r := bombsAdvance e rest su ss
        ({ b with vy := vy, y := y } :: r.1, r.2)
    else
      if e.now - b.start < EXPLOSION_TIME then
        let r := bombsAdvance e rest su ss
        (b :: r.1, r.2)
      else bombsAdvance e rest su ss

/-! ### Anti-aircraft batteries (src/main.py lines 470-502)

    The random draws consumed by one battery when it considers firing:
    jx is random.uniform(-6, 6); burstY is
    random.randint(int(sh*AA_MIN_ALT_FRAC), int(sh*AA_MAX_ALT_FRAC));
    svx is random.uniform(-100, 100); vyE is random.uniform(0, 120);
    u is random.uniform(AA_SPAWN_RATE*0.8, AA_SPAWN_RATE*1.3). -/
structure FireDraws where
  jx : ℚ := 0
  burstY : ℚ
  svx : ℚ := 0
  vyE : ℚ := 0
  u : ℚ

/-- Firing guard and re-arm of one battery (lines 471 and 480): fire only
    when the next-fire timestamp elapsed and the global active-shot count
    is below AA_MAX_SHOTS; on firing, re-arm to now plus the fresh draw. -/
def batteryStep (now u : ℚ) (shotCount : ℕ) (nf : ℚ) : Bool × ℚ :=
  if nf ≤ now ∧ shotCount < AA_MAX_SHOTS then (true, now + u) else (false, nf)

/-- The battery loop (lines 470-480): each battery holds a base point and a
    next-fire timestamp; fired shots join the shared shot list, whose
    growing length gates the remaining batteries of the same tick. -/
def aaFire (now : ℚ) (fd : ℕ → FireDraws) :
    ℕ → List ((ℚ × ℚ) × ℚ) → List AAShot → List ((ℚ × ℚ) × ℚ) × List AAShot
  | _, [], shots => ([], shots)
  | i, (base, nf) :: rest, shots =>
    let d := fd i
    let st := batteryStep now d.u shots.length nf
    let shots1 :=
      if st.1 = true then
        shots ++ [{ x := base.1 + d.jx, y := base.2, vx := d.svx
                  , vy := -500 - d.vyE, target_y := d.burstY, alive := true }]
      else shots
    let r := aaFire now fd (i + 1) rest shots1
    ((base, st.2) :: r.1, r.2)

/-- The smoke-puff draws of one converting shot (lines 489-499); the source
    draws randint(*AA_SMOKE_PUFFS) puffs, each with its own offsets, radius,
    velocity, alpha and tone. -/
structure PuffDraw where
  ox : ℚ
  oy : ℚ
  r : ℚ
  vy : ℚ
  a : ℚ
  tone : ℤ

structure ShotDraws where
  puffs : List PuffDraw

def mkPuffs (x y : ℚ) (ps : List PuffDraw) : List Smoke :=
  ps.map fun d => { x := x + d.ox, y := y + d.oy, r := d.r
                  , vy := d.vy, a := d.a, tone := d.tone }

/-- Shot integration and burst conversion (lines 482-501): an alive shot
    moves by its velocity; when it reaches its target altitude or the
    20-pixel ceiling it converts into a fresh AABurst plus smoke puffs,
    otherwise it survives into the next tick. -/
def aaShotsAux (e : Env) (sd : ℕ → ShotDraws) :
    ℕ → List AAShot → List AAShot × List AABurst × List Smoke
  | _, [] => ([], [], [])
  | i, s :: rest =>
    let r := aaShotsAux e sd (i + 1) rest
    if s.alive = true then
      let x := s.x + s.vx * e.dt
      let y := s.y + s.vy * e.dt
      if y ≤ s.target_y ∨ y < 20 then
        (r.1, { x := x, y := y, start := e.now, radius := 48 } :: r.2.1
        , mkPuffs x y (sd i).puffs ++ r.2.2)
      else
        ({ s with x := x, y := y } :: r.1, r.2)
    else r

/-- The shot update of one tick (lines 482-502). The burst list is built
    afresh from this tick's conversions alone, and the surviving shots are
    truncated to AA_MAX_SHOTS. -/
def aaShotsUpdate (e : Env) (sd : ℕ → ShotDraws) (shots : List AAShot) :
    List AAShot × List AABurst × List Smoke :=
  let r := aaShotsAux e sd 0 shots
  (r.1.take AA_MAX_SHOTS, r.2)

/-! ### Collision resolver (src/main.py lines 504-521) -/

/-- Visual center of a plane as used by the hit test (lines 512-513). -/
def planeCx (p : Plane) : ℚ := p.x + p.img_w / 2

def planeCy (p : Plane) : ℚ := p.y + p.img_h / 2

/-- Squared distance from the burst center to the plane center. -/
def dist2 (b : AABurst) (p : Plane) : ℚ :=
  (planeCx p - b.x) * (planeCx p - b.x) + (planeCy p - b.y) * (planeCy p - b.y)

/-- Kill of a plane by a burst (lines 516-520): the plane starts dying and
    burning, receives the upward impulse and the spin draw, its horizontal
    velocity is damped by 0.65 and its grace timestamp is set to now + 2. -/
def killPlane (now spin : ℚ) (p : Plane) : Plane :=
  { p with on_fire := true
         , dying := true
         , vy := -60
         , spin := spin
         , vx := p.vx * (13/20)
         , invuln_until := now + 2 }

/-- Inner plane loop of the hit test (lines 510-521): skip dying or still
    invulnerable planes, kill the first remaining plane within the squared
    radius, and stop at the first kill. -/
def tryKill (now spin : ℚ) (b : AABurst) : List Plane → List Plane × Bool
  | [] => ([], false)
  | p :: rest =>
    if p.dying = true ∨ now < p.invuln_until then
      let r := tryKill now spin b rest
      (p :: r.1, r.2)
    else if dist2 b p ≤ b.radius * b.radius then
      (killPlane now spin p :: rest, true)
    else
      let r := tryKill now spin b rest
      (p :: r.1, r.2)

/-- Outer burst loop of the hit test (lines 504-521): bursts older than
    hitWindow are skipped; a hit extends the shake expiry. -/
def burstsResolveAux (now : ℚ) (sp : ℕ → ℚ) :
    ℕ → List AABurst → List Plane → ℚ → List Plane × ℚ
  | _, [], ps, su => (ps, su)
  | i, b :: bs, ps, su =>
    if hitWindow < now - b.start then burstsResolveAux now sp (i + 1) bs ps su
    else
      let r := tryKill now (sp i) b ps
      burstsResolveAux now sp (i + 1) bs r.1
        (if r.2 = true then burstShakeUntil now su else su)

def burstsResolve (now : ℚ) (sp : ℕ → ℚ) (bs : List AABurst) (ps : List Plane)
    (su : ℚ) : List Plane × ℚ :=
  burstsResolveAux now sp 0 bs ps su

/-! ### Smoke pool update (src/main.py lines 524-530) -/

/-- The trailing n entries of a list, as the Python slice xs[-n:] computes
    them for positive n. -/
def lastN (n : ℕ) (xs : List α) : List α :=
  xs.drop (xs.length - n)

/-- Per-particle integration (lines 526-528) with the two per-tick draws
    dr from uniform(*AA_PUFF_DR) and da from uniform(*AA_PUFF_DA). -/
def smokeStep (dt dr da : ℚ) (s : Smoke) : Smoke :=
  { s with y := s.y + s.vy * dt, r := s.r + dr * dt, a := s.a - da * dt }

def smokeStepAll (dt : ℚ) (d : ℕ → ℚ × ℚ) : ℕ → List Smoke → List Smoke
  | _, [] => []
  | i, s :: rest => smokeStep dt (d i).1 (d i).2 s :: smokeStepAll dt d (i + 1) rest

/-- The smoke pool update of one tick (lines 524-530): integrate every
    particle, keep those whose alpha stays above 6, then truncate the pool
    to its most recent MAX_SMOKE entries. -/
def smokesUpdate (dt : ℚ) (d : ℕ → ℚ × ℚ) (ss : List Smoke) : List Smoke :=
  lastN MAX_SMOKE ((smokeStepAll dt d 0 ss).filter fun s => decide ((6:ℚ) < s.a))

/-! ### The simulation tick (orchestration of src/main.py lines 417-538) -/

/-- The mutable simulation state of the main loop. aa_nf pairs each battery
    base with its next-fire timestamp; aa_bursts holds the burst records as
    left by the latest tick. -/
structure GameState where
  planes : List Plane
  bombs : List Bomb
  smokes : List Smoke
  aa_nf : List ((ℚ × ℚ) × ℚ)
  aa_shots : List AAShot
  aa_bursts : List AABurst
  shake_until : ℚ
  shake_strength : ℚ
deriving DecidableEq, Inhabited, Repr

/-- One tick of frame data: clock values, viewport size and every random
    draw consumed by the subsystems, indexed in consumption order. -/
structure TickIn where
  dt : ℚ
  now : ℚ
  sw : ℚ
  sh : ℚ
  pd : ℕ → PlaneDraws
  fd : ℕ → FireDraws
  sd : ℕ → ShotDraws
  sp : ℕ → ℚ
  smd : ℕ → ℚ × ℚ

def TickIn.env (t : TickIn) : Env :=
  { dt := t.dt, now := t.now, sw := t.sw, sh := t.sh }

/-- One simulation tick in source order: plane loop, bomb loop, battery
    firing, shot movement and burst conversion, burst hit test, smoke pool
    update. The burst list is rebuilt from scratch inside the shot update,
    so bursts of earlier ticks never reach the hit test again. -/
def gameTick (t : TickIn) (st : GameState) : GameState :=
  let e := t.env
  let pl := planesStep e t.pd st.planes st.bombs
  let bo := bombsAdvance e pl.2.1 st.shake_until st.shake_strength
  let fi := aaFire t.now t.fd 0 st.aa_nf st.aa_shots
  let sh := aaShotsUpdate e t.sd fi.2
  let re := burstsResolve t.now t.sp sh.2.1 pl.1 bo.2.1
  { planes := re.1
  , bombs := bo.1
  , smokes := smokesUpdate t.dt t.smd (st.smokes ++ pl.2.2 ++ sh.2.2)
  , aa_nf := fi.1
  , aa_shots := sh.1
  , aa_bursts := sh.2.1
  , shake_until := re.2
  , shake_strength := bo.2.2 }

def runTicks (ts : List TickIn) (st : GameState) : GameState :=
  ts.foldl (fun s t => gameTick t s) st

/-! ### Plane pool construction (src/main.py lines 303-310) -/

/-- The draws of one freshly constructed plane: speed is
    random.uniform(sw*0.06, sw*0.10), lane is random.choice(lanes), off is
    random.uniform(40, 260) and bombU is random.uniform(*BOMB_RATE). -/
structure InitDraws where
  speed : ℚ
  lane : ℚ
  off : ℚ
  bombU : ℚ

/-- Construction of the plane pool (lines 303-310): the loop runs over
    range(min(MAX_PLANES, max(len(plane_sprites), MAX_PLANES))), alternating
    travel direction by index and spawning each plane off one edge. The
    function dims gives the pixel size of sprite number i. -/
def initPlanes (nSprites : ℕ) (dims : ℕ → ℚ × ℚ) (d : ℕ → InitDraws)
    (sw now0 : ℚ) : List Plane :=
  (List.range (min MAX_PLANES (max nSprites MAX_PLANES))).map fun i =>
    let dr := d i
    let w := (dims (i % nSprites)).1
    let h := (dims (i % nSprites)).2
    let vx := if i % 2 = 0 then dr.speed else -dr.speed
    { img_w := w, img_h := h
    , x := if i % 2 = 0 then -w - dr.off else sw + dr.off
    , y := dr.lane
    , vx := vx
    , next_bomb := now0 + dr.bombU
    , original_facing := Facing.left }

/-! ### Logo overlay state machine (src/main.py lines 347-357, 400-414,
    541-545 and 605-627)

    The backdrop and card surfaces themselves belong to the external
    renderer; the cached composite bg_with_logo is modelled by its presence
    together with the position at which the card was composed onto the
    backdrop copy. -/

/-- Python int() truncation toward zero. -/
def pyInt (q : ℚ) : ℤ :=
  if q < 0 then -((-q).floor) else q.floor

/-- Python floor division on integers. -/
def pyDiv (a b : ℤ) : ℤ := Int.fdiv a b

/-- The logo-related mutable state of the main loop. -/
structure LogoState where
  show_time : ℚ
  anim_start : ℚ
  active : Bool
  parked : Bool
  center : ℤ × ℤ
  logo_center_y : ℤ
  start_y : ℤ
  card_h : ℤ
  bg_logo : Option (ℤ × ℤ)
  using_baked : Bool
deriving DecidableEq, Inhabited, Repr

/-- Trigger of the slide (lines 412-414 and 607-609): record the animation
    start the first time the show time has elapsed. -/
def logoTrigger (now : ℚ) (st : LogoState) : LogoState :=
  if st.active = false then { st with active := true, anim_start := now } else st

/-- Per-tick logo update (lines 605-624): before parking, interpolate the
    overlay center from start_y to logo_center_y with the cubic ease-out,
    and at full progress park it, compose the card onto a fresh backdrop
    copy exactly once, cache the composite and switch to the baked path. -/
def logoTick (sw : ℤ) (now : ℚ) (st : LogoState) : LogoState :=
  if st.parked = false ∧ st.show_time ≤ now then
    let st1 := logoTrigger now st
    let t := (now - st1.anim_start) / LOGO_SLIDE_DUR
    if 1 ≤ t then
      { st1 with center := (pyDiv sw 2, st1.logo_center_y)
               , parked := true
               , active := false
               , bg_logo := some (pyDiv sw 2, st1.logo_center_y)
               , using_baked := true }
    else
      let ease := 1 - (1 - t) ^ 3
      { st1 with center :=
          (pyDiv sw 2
          , pyInt ((st1.start_y : ℚ)
              + ((st1.logo_center_y : ℚ) - (st1.start_y : ℚ)) * ease)) }
  else st

/-- Whether the draw step blits the cached composite backdrop
    (lines 541-542). -/
def usesBakedBackdrop (st : LogoState) : Bool :=
  st.using_baked && st.bg_logo.isSome

/-- Resize handling for the logo (lines 400-409): rebuild the card,
    recompute both anchor heights from the new viewport, re-park or reset
    the position, and drop the cached composite. The show time, the
    animation start, the active flag and the parked flag are not touched. -/
def logoResize (sw sh newCardH : ℤ) (st : LogoState) : LogoState :=
  let lcy := pyDiv sh 2
  let lsy := sh + pyDiv newCardH 2 + 20
  { st with logo_center_y := lcy
          , start_y := lsy
          , card_h := newCardH
          , center := (pyDiv sw 2, if st.parked = true then lcy else lsy)
          , bg_logo := none
          , using_baked := false }

/-! ### Battery firing traces (for the scheduling claims)

    A trace of battery-relevant tick data: at each tick the battery sees
    the time now, the current global active-shot count, and the jitter
    draw it would consume; batteryFires collects the times at which the
    battery actually fires. -/

def batteryFires : List (ℚ × ℕ × ℚ) → ℚ → List ℚ
  | [], _ => []
  | (now, cnt, u) :: rest, nf =>
    let st := batteryStep now u cnt nf
    if st.1 = true then now :: batteryFires rest st.2 else batteryFires rest st.2

/-! ### Concrete run data used by the counterexample and failing-input
    theorems -/

/-- A fixed draw record for plane updates in concrete runs: no smoke
    emission, lane 40, edge offset 60. -/
def cdraws : PlaneDraws :=
  { emit := false, lane := 40, off := 60, bombU := 1, wlane := 40, woff := 60 }

def cfire : FireDraws := { jx := 0, burstY := 110, svx := 0, vyE := 0, u := 1 }

/-- A plane whose visual center sits 2 pixels left of (52, 92) on a 200x200
    viewport, still invulnerable until time 1/20. -/
def c1plane : Plane :=
  { img_w := 120, img_h := 40, x := -10, y := 72, vx := 13, next_bomb := 1000
  , original_facing := Facing.left, invuln_until := 1/20 }

def c1st0 : GameState :=
  { planes := [c1plane], bombs := [], smokes := []
  , aa_nf := [((50, 142), -1)], aa_shots := [], aa_bursts := []
  , shake_until := 0, shake_strength := 0 }

def c1in1 : TickIn :=
  { dt := 1/10, now := 0, sw := 200, sh := 200
  , pd := fun _ => cdraws, fd := fun _ => cfire
  , sd := fun _ => { puffs := [] }, sp := fun _ => 1
  , smd := fun _ => (16, 160) }

def c1in2 : TickIn :=
  { dt := 3/50, now := 3/50, sw := 200, sh := 200
  , pd := fun _ => cdraws, fd := fun _ => cfire
  , sd := fun _ => { puffs := [] }, sp := fun _ => 1
  , smd := fun _ => (16, 160) }

def c1st1 : GameState := gameTick c1in1 c1st0

def c1st2 : GameState := gameTick c1in2 c1st1

def c1burst : AABurst := { x := 50, y := 92, start := 0, radius := 48 }

/-- Same setting as c1plane but with no remaining invulnerability, so the
    burst created in the first tick kills it that tick. -/
def c2plane : Plane :=
  { img_w := 120, img_h := 40, x := -10, y := 72, vx := 13, next_bomb := 1000
  , original_facing := Facing.left, invuln_until := 0 }

def c2st0 : GameState :=
  { planes := [c2plane], bombs := [], smokes := []
  , aa_nf := [((50, 142), -1)], aa_shots := [], aa_bursts := []
  , shake_until := 0, shake_strength := 0 }

def c2st1 : GameState := gameTick c1in1 c2st0

/-- A plane at the center of the first counterexample burst for the
    re-kill run, on a 200x200 viewport. -/
def c6p0 : Plane :=
  { img_w := 120, img_h := 40, x := 0, y := 40, vx := 13, next_bomb := 1000
  , original_facing := Facing.left }

def c6b1 : AABurst := { x := 60, y := 60, start := 0, radius := 48 }

def c6p1 : Plane := (burstsResolve 0 (fun _ => 1) [c6b1] [c6p0] 0).1.headI

def c6p2 : Plane :=
  (planeStepP { dt := 1, now := 1, sw := 200, sh := 200 } cdraws c6p1 []).1

def c6p3 : Plane :=
  (planeStepP { dt := 9/10, now := 19/10, sw := 200, sh := 200 } cdraws c6p2 []).1

def c6b2 : AABurst := { x := -120, y := 60, start := 19/10, radius := 48 }

def c6p4 : Plane := (burstsResolve (19/10) (fun _ => 1) [c6b2] [c6p3] 0).1.headI

/-- A parked and baked logo state on a 1280x720 viewport. -/
def c8st : LogoState :=
  { show_time := 10, anim_start := 10, active := false, parked := true
  , center := (640, 360), logo_center_y := 360, start_y := 860, card_h := 240
  , bg_logo := some (640, 360), using_baked := true }

/-- A logo state in the middle of its slide (anim started at time 10). -/
def c9st : LogoState :=
  { show_time := 10, anim_start := 10, active := true, parked := false
  , center := (640, 500), logo_center_y := 360, start_y := 860, card_h := 240
  , bg_logo := none, using_baked := false }

/-! ### Helper lemmas: pool sizes -/

theorem tryKill_length (now spin : ℚ) (b : AABurst) (ps : List Plane) :
    (tryKill now spin b ps).1.length = ps.length := by
  induction ps with
  | nil => rfl
  | cons p rest ih =>
    simp only [tryKill]
    split
    · simpa using ih
    · split
      · simp
      · simpa using ih

theorem burstsResolveAux_length (now : ℚ) (sp : ℕ → ℚ) (bs : List AABurst) :
    ∀ (i : ℕ) (ps : List Plane) (su : ℚ),
      (burstsResolveAux now sp i bs ps su).1.length = ps.length := by
  induction bs with
  | nil => intro i ps su; rfl
  | cons b rest ih =>
    intro i ps su
    simp only [burstsResolveAux]
    split
    · exact ih _ _ _
    · rw [ih]
      exact tryKill_length now (sp i) b ps

theorem planesStepAux_length (e : Env) (pd : ℕ → PlaneDraws) (ps : List Plane) :
    ∀ (i : ℕ) (bombs : List Bomb),
      (planesStepAux e pd i ps bombs).1.length = ps.length := by
  induction ps with
  | nil => intro i bombs; rfl
  | cons p rest ih =>
    intro i bombs
    simp only [planesStepAux, List.length_cons]
    rw [ih]

theorem gameTick_planes_length (t : TickIn) (st : GameState) :
    (gameTick t st).planes.length = st.planes.length := by
  simp only [gameTick, burstsResolve, planesStep]
  rw [burstsResolveAux_length, planesStepAux_length]

theorem runTicks_planes_length (ts : List TickIn) :
    ∀ st : GameState, (runTicks ts st).planes.length = st.planes.length := by
  induction ts with
  | nil => intro st; rfl
  | cons t rest ih =>
    intro st
    show (runTicks rest (gameTick t st)).planes.length = _
    rw [ih, gameTick_planes_length]

theorem planeBomb_bombs_le (e : Env) (d : PlaneDraws) (p : Plane)
    (bombs : List Bomb) (h : bombs.length ≤ MAX_BOMBS) :
    (planeBomb e d p bombs).2.length ≤ MAX_BOMBS := by
  simp only [planeBomb]
  split
  · next hc => simpa using hc.2.2
  · exact h

theorem planeBomb_full (e : Env) (d : PlaneDraws) (p : Plane)
    (bombs : List Bomb) (h : MAX_BOMBS ≤ bombs.length) :
    planeBomb e d p bombs = (p, bombs) := by
  simp only [planeBomb]
  rw [if_neg]
  intro hc
  omega

theorem planesStepAux_bombs_le (e : Env) (pd : ℕ → PlaneDraws) (ps : List Plane) :
    ∀ (i : ℕ) (bombs : List Bomb), bombs.length ≤ MAX_BOMBS →
      (planesStepAux e pd i ps bombs).2.1.length ≤ MAX_BOMBS := by
  induction ps with
  | nil => intro i bombs h; exact h
  | cons p rest ih =>
    intro i bombs h
    exact ih _ _ (planeBomb_bombs_le e (pd i) _ bombs h)

theorem bombsAdvance_length_le (e : Env) (bs : List Bomb) :
    ∀ (su ss : ℚ), (bombsAdvance e bs su ss).1.length ≤ bs.length := by
  induction bs with
  | nil => intro su ss; exact Nat.le_refl _
  | cons b rest ih =>
    intro su ss
    simp only [bombsAdvance]
    split
    · split
      · simpa using Nat.succ_le_succ (ih _ _)
      · simpa using Nat.succ_le_succ (ih _ _)
    · split
      · simpa using Nat.succ_le_succ (ih _ _)
      · exact Nat.le_succ_of_le (ih _ _)

theorem gameTick_bombs_le (t : TickIn) (st : GameState)
    (h : st.bombs.length ≤ MAX_BOMBS) :
    (gameTick t st).bombs.length ≤ MAX_BOMBS := by
  simp only [gameTick]
  exact Nat.le_trans (bombsAdvance_length_le _ _ _ _)
    (planesStepAux_bombs_le _ _ _ _ _ h)

theorem runTicks_bombs_le (ts : List TickIn) :
    ∀ st : GameState, st.bombs.length ≤ MAX_BOMBS →
      (runTicks ts st).bombs.length ≤ MAX_BOMBS := by
  induction ts with
  | nil => intro st h; exact h
  | cons t rest ih =>
    intro st h
    exact ih (gameTick t st) (gameTick_bombs_le t st h)

/-! ### Helper lemmas: battery scheduling -/

theorem batteryStep_fired_le (now u : ℚ) (cnt : ℕ) (nf : ℚ)
    (h : (batteryStep now u cnt nf).1 = true) : nf ≤ now := by
  by_cases hc : nf ≤ now ∧ cnt < AA_MAX_SHOTS
  · exact hc.1
  · simp only [batteryStep, if_neg hc] at h
    exact absurd h (by simp)

theorem batteryStep_fired_cnt (now u : ℚ) (cnt : ℕ) (nf : ℚ)
    (h : (batteryStep now u cnt nf).1 = true) : cnt < AA_MAX_SHOTS := by
  by_cases hc : nf ≤ now ∧ cnt < AA_MAX_SHOTS
  · exact hc.2
  · simp only [batteryStep, if_neg hc] at h
    exact absurd h (by simp)

theorem batteryStep_fired_rearm (now u : ℚ) (cnt : ℕ) (nf : ℚ)
    (h : (batteryStep now u cnt nf).1 = true) :
    (batteryStep now u cnt nf).2 = now + u := by
  by_cases hc : nf ≤ now ∧ cnt < AA_MAX_SHOTS
  · simp only [batteryStep, if_pos hc]
  · simp only [batteryStep, if_neg hc] at h
    exact absurd h (by simp)

theorem batteryFires_ge (ticks : List (ℚ × ℕ × ℚ)) :
    ∀ nf : ℚ, (∀ t ∈ ticks, (0:ℚ) ≤ t.2.2) →
      ∀ x ∈ batteryFires ticks nf, nf ≤ x := by
  induction ticks with
  | nil => intro nf _ x hx; exact absurd hx (List.not_mem_nil x)
  | cons t rest ih =>
    intro nf hu x hx
    obtain ⟨now, cnt, u⟩ := t
    simp only [batteryFires] at hx
    by_cases hf : (batteryStep now u cnt nf).1 = true
    · rw [if_pos hf] at hx
      rcases List.mem_cons.mp hx with h0 | h1
      · exact h0 ▸ batteryStep_fired_le now u cnt nf hf
      · have h2 := ih (batteryStep now u cnt nf).2
          (fun s hs => hu s (List.mem_cons_of_mem _ hs)) x h1
        rw [batteryStep_fired_rearm now u cnt nf hf] at h2
        have h3 : nf ≤ now + u := by
          have hle := batteryStep_fired_le now u cnt nf hf
          have hu0 : (0:ℚ) ≤ u := hu (now, cnt, u) (List.mem_cons_self _ _)
          linarith
        linarith
    · rw [if_neg hf] at hx
      have hnf : (batteryStep now u cnt nf).2 = nf := by
        by_cases hc : nf ≤ now ∧ cnt < AA_MAX_SHOTS
        · exact absurd (by simp [batteryStep, if_pos hc]) hf
        · simp [batteryStep, if_neg hc]
      rw [hnf] at hx
      exact ih nf (fun s hs => hu s (List.mem_cons_of_mem _ hs)) x hx

theorem batteryFires_chain (ticks : List (ℚ × ℕ × ℚ)) :
    ∀ nf : ℚ, (∀ t ∈ ticks, AA_SPAWN_RATE * (4/5) ≤ t.2.2) →
      List.Chain' (fun a b => a + AA_SPAWN_RATE * (4/5) ≤ b)
        (batteryFires ticks nf) := by
  induction ticks with
  | nil => intro nf _; exact List.chain'_nil
  | cons t rest ih =>
    intro nf hu
    obtain ⟨now, cnt, u⟩ := t
    have hrest : ∀ s ∈ rest, AA_SPAWN_RATE * (4/5) ≤ s.2.2 :=
      fun s hs => hu s (List.mem_cons_of_mem _ hs)
    simp only [batteryFires]
    by_cases hf : (batteryStep now u cnt nf).1 = true
    · rw [if_pos hf]
      rw [List.chain'_cons']
      constructor
      · intro y hy
        have hym : y ∈ batteryFires rest (batteryStep now u cnt nf).2 :=
          List.mem_of_mem_head? hy
        have hge := batteryFires_ge rest (batteryStep now u cnt nf).2
          (fun s hs => le_trans (by norm_num [AA_SPAWN_RATE]) (hrest s hs)) y hym
        rw [batteryStep_fired_rearm now u cnt nf hf] at hge
        have hu1 : AA_SPAWN_RATE * (4/5) ≤ u := hu (now, cnt, u) (List.mem_cons_self _ _)
        linarith
      · exact ih _ hrest
    · rw [if_neg hf]
      exact ih _ hrest

theorem batteryFires_below_cap (ticks : List (ℚ × ℕ × ℚ)) :
    ∀ nf : ℚ, ∀ x ∈ batteryFires ticks nf,
      ∃ t ∈ ticks, t.1 = x ∧ t.2.1 < AA_MAX_SHOTS := by
  induction ticks with
  | nil => intro nf x hx; exact absurd hx (List.not_mem_nil x)
  | cons t rest ih =>
    intro nf x hx
    obtain ⟨now, cnt, u⟩ := t
    simp only [batteryFires] at hx
    by_cases hf : (batteryStep now u cnt nf).1 = true
    · rw [if_pos hf] at hx
      rcases List.mem_cons.mp hx with h0 | h1
      · exact ⟨(now, cnt, u), List.mem_cons_self _ _, h0.symm
          , batteryStep_fired_cnt now u cnt nf hf⟩
      · obtain ⟨s, hs, he, hc⟩ := ih _ x h1
        exact ⟨s, List.mem_cons_of_mem _ hs, he, hc⟩
    · rw [if_neg hf] at hx
      obtain ⟨s, hs, he, hc⟩ := ih _ x hx
      exact ⟨s, List.mem_cons_of_mem _ hs, he, hc⟩

/-! ### Helper lemmas: the hit test -/

theorem killPlane_dying (now spin : ℚ) (p : Plane) :
    (killPlane now spin p).dying = true := rfl

theorem killPlane_vx (now spin : ℚ) (p : Plane) :
    (killPlane now spin p).vx = p.vx * (13/20) := rfl

theorem killPlane_invuln (now spin : ℚ) (p : Plane) :
    (killPlane now spin p).invuln_until = now + 2 := rfl

theorem tryKill_get (now spin : ℚ) (b : AABurst) (ps : List Plane) :
    ∀ i : ℕ,
      (tryKill now spin b ps).1[i]? = ps[i]? ∨
      ∃ p, ps[i]? = some p ∧ p.dying = false ∧ p.invuln_until ≤ now ∧
        dist2 b p ≤ b.radius * b.radius ∧
        (tryKill now spin b ps).1[i]? = some (killPlane now spin p) := by
  induction ps with
  | nil => intro i; left; rfl
  | cons p rest ih =>
    intro i
    simp only [tryKill]
    split
    · cases i with
      | zero => left; simp
      | succ n => simpa using ih n
    · split
      · next hskip hdist =>
        push_neg at hskip
        cases i with
        | zero =>
          right
          exact ⟨p, by simp, by simpa using hskip.1, hskip.2, hdist, by simp⟩
        | succ n => left; simp
      · cases i with
        | zero => left; simp
        | succ n => simpa using ih n

theorem tryKill_dying_stable (now spin : ℚ) (b : AABurst) (ps : List Plane)
    (i : ℕ) (p : Plane) (hp : ps[i]? = some p) (hd : p.dying = true) :
    (tryKill now spin b ps).1[i]? = some p := by
  rcases tryKill_get now spin b ps i with h | ⟨q, hq, hqd, _, _, _⟩
  · rw [h, hp]
  · rw [hp] at hq
    cases hq
    rw [hqd] at hd
    exact absurd hd (by simp)

theorem burstsResolveAux_get (now : ℚ) (sp : ℕ → ℚ) (bs : List AABurst) :
    ∀ (j : ℕ) (ps : List Plane) (su : ℚ) (i : ℕ),
      (burstsResolveAux now sp j bs ps su).1[i]? = ps[i]? ∨
      ∃ p s b, b ∈ bs ∧ now - b.start ≤ hitWindow ∧ ps[i]? = some p ∧
        p.dying = false ∧ p.invuln_until ≤ now ∧
        dist2 b p ≤ b.radius * b.radius ∧
        (burstsResolveAux now sp j bs ps su).1[i]? = some (killPlane now s p) := by
  induction bs with
  | nil => intro j ps su i; left; rfl
  | cons b rest ih =>
    intro j ps su i
    simp only [burstsResolveAux]
    split
    · rcases ih (j + 1) ps su i with h | ⟨p, s, b', hb, hw, hp, hpd, hpi, hpr, hres⟩
      · left; exact h
      · right
        exact ⟨p, s, b', List.mem_cons_of_mem _ hb, hw, hp, hpd, hpi, hpr, hres⟩
    · next hwin =>
      rcases ih (j + 1) (tryKill now (sp j) b ps).1 _ i
        with h | ⟨q, s, b', hb, hw, hq, hqd, hqi, hqr, hres⟩
      · rcases tryKill_get now (sp j) b ps i with h2 | ⟨p, hp, hpd, hpi, hpr, h2⟩
        · left; rw [h, h2]
        · right
          exact ⟨p, sp j, b, List.mem_cons_self _ _, not_lt.mp hwin, hp, hpd
            , hpi, hpr, by rw [h, h2]⟩
      · rcases tryKill_get now (sp j) b ps i with h2 | ⟨p, hp, hpd2, _, _, h2⟩
        · right
          rw [h2] at hq
          exact ⟨q, s, b', List.mem_cons_of_mem _ hb, hw, hq, hqd, hqi, hqr, hres⟩
        · rw [h2] at hq
          cases hq
          exact absurd (killPlane_dying now (sp j) p) (by rw [hqd]; simp)

theorem burstsResolve_dying_stable (now : ℚ) (sp : ℕ → ℚ) (bs : List AABurst)
    (ps : List Plane) (su : ℚ) (i : ℕ) (p : Plane)
    (hp : ps[i]? = some p) (hd : p.dying = true) :
    (burstsResolve now sp bs ps su).1[i]? = some p := by
  rcases burstsResolveAux_get now sp bs 0 ps su i
    with h | ⟨q, _, _, _, _, hq, hqd, _, _, _⟩
  · rw [burstsResolve, h, hp]
  · rw [hp] at hq
    cases hq
    rw [hqd] at hd
    exact absurd hd (by simp)

/-! ### Helper lemmas: horizontal velocity -/

theorem planeFall_vx (e : Env) (p : Plane) : (planeFall e p).vx = p.vx := rfl

theorem recyclePlane_vx (e : Env) (d : PlaneDraws) (p : Plane) :
    (recyclePlane e d p).vx = p.vx := rfl

theorem planeMoved_vx (e : Env) (d : PlaneDraws) (p : Plane) :
    (planeMoved e d p).vx = p.vx := by
  simp only [planeMoved]
  split
  · split <;> rfl
  · rfl

theorem planeBomb_vx (e : Env) (d : PlaneDraws) (p : Plane) (bombs : List Bomb) :
    (planeBomb e d p bombs).1.vx = p.vx := by
  simp only [planeBomb]
  split <;> rfl

theorem planeWrap_vx (e : Env) (d : PlaneDraws) (p : Plane) :
    (planeWrap e d p).vx = p.vx := by
  simp only [planeWrap]
  split
  · split
    · rfl
    · split <;> rfl
  · rfl

theorem planeStepP_vx (e : Env) (d : PlaneDraws) (p : Plane) (bombs : List Bomb) :
    (planeStepP e d p bombs).1.vx = p.vx := by
  simp only [planeStepP]
  rw [planeWrap_vx, planeBomb_vx, planeMoved_vx]

theorem omap_vx_comp (o1 o2 : Option Plane) (f g : ℚ → ℚ)
    (h : o1.map (fun p => f p.vx) = o2.map (fun p => g p.vx)) (F : ℚ → ℚ) :
    o1.map (fun p => F (f p.vx)) = o2.map (fun p => F (g p.vx)) := by
  cases o1 <;> cases o2 <;> simp_all

theorem omap_ext (o : Option Plane) (f g : Plane → ℚ) (h : ∀ p : Plane, f p = g p) :
    o.map f = o.map g := by
  cases o <;> simp_all

theorem planesStepAux_get_vx (e : Env) (pd : ℕ → PlaneDraws) (ps : List Plane) :
    ∀ (i j : ℕ) (bombs : List Bomb),
      ((planesStepAux e pd j ps bombs).1[i]?).map Plane.vx =
        (ps[i]?).map Plane.vx := by
  induction ps with
  | nil => intro i j bombs; rfl
  | cons p rest ih =>
    intro i j bombs
    cases i with
    | zero =>
      simp only [planesStepAux]
      simp [planeStepP_vx]
    | succ n =>
      simp only [planesStepAux]
      simpa using ih n (j + 1) (planeStepP e (pd j) p bombs).2.1

theorem burstsResolve_get_vx (now : ℚ) (sp : ℕ → ℚ) (bs : List AABurst)
    (ps : List Plane) (su : ℚ) (i : ℕ) :
    ((burstsResolve now sp bs ps su).1[i]?).map Plane.vx =
      (ps[i]?).map Plane.vx ∨
    ((burstsResolve now sp bs ps su).1[i]?).map Plane.vx =
      (ps[i]?).map fun p => p.vx * (13/20) := by
  rcases burstsResolveAux_get now sp bs 0 ps su i
    with h | ⟨p, s, _, _, _, hp, _, _, _, hres⟩
  · left; rw [burstsResolve, h]
  · right
    rw [burstsResolve, hres, hp]
    rfl

theorem gameTick_get_vx (t : TickIn) (st : GameState) (i : ℕ) :
    ((gameTick t st).planes[i]?).map Plane.vx = (st.planes[i]?).map Plane.vx ∨
    ((gameTick t st).planes[i]?).map Plane.vx =
      (st.planes[i]?).map fun p => p.vx * (13/20) := by
  have hpl : (gameTick t st).planes =
      (burstsResolve t.now t.sp
        (aaShotsUpdate t.env t.sd (aaFire t.now t.fd 0 st.aa_nf st.aa_shots).2).2.1
        (planesStep t.env t.pd st.planes st.bombs).1
        (bombsAdvance t.env (planesStep t.env t.pd st.planes st.bombs).2.1
          st.shake_until st.shake_strength).2.1).1 := rfl
  have hmid := planesStepAux_get_vx t.env t.pd st.planes i 0 st.bombs
  rcases burstsResolve_get_vx t.now t.sp
      (aaShotsUpdate t.env t.sd (aaFire t.now t.fd 0 st.aa_nf st.aa_shots).2).2.1
      (planesStep t.env t.pd st.planes st.bombs).1
      (bombsAdvance t.env (planesStep t.env t.pd st.planes st.bombs).2.1
        st.shake_until st.shake_strength).2.1 i with h | h
  · left
    rw [hpl, h]
    exact hmid
  · right
    rw [hpl, h]
    exact omap_vx_comp _ _ (fun v => v) (fun v => v) hmid (· * (13/20))

theorem runTicks_get_vx (ts : List TickIn) :
    ∀ (st : GameState) (i : ℕ), ∃ k : ℕ,
      ((runTicks ts st).planes[i]?).map Plane.vx =
        (st.planes[i]?).map fun p => p.vx * ((13:ℚ)/20) ^ k := by
  induction ts with
  | nil =>
    intro st i
    refine ⟨0, ?_⟩
    show (st.planes[i]?).map Plane.vx = _
    exact omap_ext _ _ _ (fun p => by ring)
  | cons t rest ih =>
    intro st i
    obtain ⟨k, hk⟩ := ih (gameTick t st) i
    have hrun : runTicks (t :: rest) st = runTicks rest (gameTick t st) := rfl
    rcases gameTick_get_vx t st i with h | h
    · refine ⟨k, ?_⟩
      rw [hrun, hk]
      exact omap_vx_comp _ _ (fun v => v) (fun v => v) h (· * ((13:ℚ)/20) ^ k)
    · refine ⟨k + 1, ?_⟩
      rw [hrun, hk]
      have h2 := omap_vx_comp _ _ (fun v => v) (fun v => v * (13/20)) h
        (· * ((13:ℚ)/20) ^ k)
      rw [h2]
      exact omap_ext _ _ _ (fun p => by ring)

/-! ### Helper lemmas: smoke pool -/

theorem smokeStepAll_append (dt : ℚ) (d : ℕ → ℚ × ℚ) (xs : List Smoke) :
    ∀ (i : ℕ) (ys : List Smoke),
      smokeStepAll dt d i (xs ++ ys) =
        smokeStepAll dt d i xs ++ smokeStepAll dt d (i + xs.length) ys := by
  induction xs with
  | nil => intro i ys; simp [smokeStepAll]
  | cons x rest ih =>
    intro i ys
    simp only [List.cons_append, smokeStepAll, List.length_cons]
    rw [show rest.append ys = rest ++ ys from rfl, ih (i + 1) ys]
    have h2 : i + 1 + rest.length = i + (rest.length + 1) := by omega
    rw [h2]

theorem smokeStepAll_length (dt : ℚ) (d : ℕ → ℚ × ℚ) (xs : List Smoke) :
    ∀ i : ℕ, (smokeStepAll dt d i xs).length = xs.length := by
  induction xs with
  | nil => intro i; rfl
  | cons x rest ih =>
    intro i
    simp only [smokeStepAll, List.length_cons]
    rw [ih]

theorem lastN_length_le (n : ℕ) (xs : List α) : (lastN n xs).length ≤ n := by
  simp only [lastN, List.length_drop]
  omega

theorem lastN_length_of_le (n : ℕ) (xs : List α) (h : n ≤ xs.length) :
    (lastN n xs).length = n := by
  simp only [lastN, List.length_drop]
  omega

theorem lastN_append_right (n : ℕ) (xs ys : List α) (h : n ≤ ys.length) :
    lastN n (xs ++ ys) = lastN n ys := by
  simp only [lastN, List.length_append]
  have h2 : xs.length + ys.length - n = xs.length + (ys.length - n) := by omega
  rw [h2, List.drop_append]

theorem smokesUpdate_length_le (dt : ℚ) (d : ℕ → ℚ × ℚ) (ss : List Smoke) :
    (smokesUpdate dt d ss).length ≤ MAX_SMOKE :=
  lastN_length_le _ _

theorem smokeStepAll_replicate (dt dr da : ℚ) (sm : Smoke) (n : ℕ) :
    ∀ i : ℕ, smokeStepAll dt (fun _ => (dr, da)) i (List.replicate n sm) =
      List.replicate n (smokeStep dt dr da sm) := by
  induction n with
  | zero => intro i; rfl
  | succ m ih =>
    intro i
    simp only [List.replicate_succ, smokeStepAll]
    rw [ih]

theorem burstsResolveAux_su_ge (now : ℚ) (sp : ℕ → ℚ) (bs : List AABurst) :
    ∀ (j : ℕ) (ps : List Plane) (su : ℚ),
      su ≤ (burstsResolveAux now sp j bs ps su).2 := by
  induction bs with
  | nil => intro j ps su; exact le_refl _
  | cons b rest ih =>
    intro j ps su
    simp only [burstsResolveAux]
    split
    · exact ih _ _ _
    · refine le_trans ?_ (ih (j + 1) (tryKill now (sp j) b ps).1 _)
      split
      · exact le_max_left _ _
      · exact le_refl _

/-! ### Claim theorems -/

set_option maxRecDepth 8000 in
/-- C1: the spec states that every AA burst is hit-tested on every tick
    while its age is below the 0.18 second window of simulated time and is
    discarded only once that window elapses. Concrete two-tick evaluation
    showing the code does otherwise: a burst created at time 0 exists after
    the first tick, and at the second tick (time 3/50, well inside the
    window) the burst list is already empty, so the plane that is by then a
    valid in-range target is never hit-tested and stays alive. The source
    rebuilds aa_bursts from scratch every tick, which makes its own
    hit_window age check unreachable. -/
theorem c1_burst_discarded_before_window :
    c1st1.aa_bursts = [c1burst] ∧
    c1st1.planes.map Plane.dying = [false] ∧
    c1st2.aa_bursts = [] ∧
    c1st2.planes.map Plane.dying = [false] ∧
    ((3:ℚ)/50 - c1burst.start ≤ hitWindow) ∧
    c1st2.planes.headI.invuln_until ≤ 3/50 ∧
    dist2 c1burst c1st2.planes.headI ≤ c1burst.radius * c1burst.radius := by
  norm_num [c1st2, c1st1, c1st0, c1in1, c1in2, c1plane, c1burst, cdraws, cfire,
    gameTick, TickIn.env, planesStep, planesStepAux, planeStepP, planeMoved,
    planeFall, recyclePlane, planeBomb, planeWrap, planeMoveSmoke, bombsAdvance,
    aaFire, batteryStep, aaShotsUpdate, aaShotsAux, mkPuffs, burstsResolve,
    burstsResolveAux, tryKill, killPlane, dist2, planeCx, planeCy, hitWindow,
    smokesUpdate, smokeStepAll, lastN, explosionShake, burstShakeUntil, GRAVITY,
    MAX_BOMBS, MAX_SMOKE, AA_MAX_SHOTS]

set_option maxRecDepth 8000 in
/-- C2 counterexample: the claim says an AA-burst hit on a plane mutates the
    shake strength additively like a bomb explosion does. In this concrete
    tick a burst hit occurs (the plane becomes dying) and the shake expiry
    is extended to 11/50, yet the shake strength stays exactly 0, while an
    additive update would have produced min 9 (0 + 9*0.6) = 27/5. -/
theorem c2_burst_hit_strength_unchanged :
    c2st1.planes.map Plane.dying = [true] ∧
    c2st1.shake_strength = 0 ∧
    c2st1.shake_until = 11/50 ∧
    (0:ℚ) ≠ min SHAKE_STRENGTH (0 + SHAKE_STRENGTH * (6/10)) := by
  norm_num [c2st1, c2st0, c1in1, c2plane, cdraws, cfire, gameTick, TickIn.env,
    planesStep, planesStepAux, planeStepP, planeMoved, planeFall, recyclePlane,
    planeBomb, planeWrap, planeMoveSmoke, bombsAdvance, aaFire, batteryStep,
    aaShotsUpdate, aaShotsAux, mkPuffs, burstsResolve, burstsResolveAux, tryKill,
    killPlane, dist2, planeCx, planeCy, hitWindow, smokesUpdate, smokeStepAll,
    lastN, explosionShake, burstShakeUntil, SHAKE_STRENGTH, GRAVITY, MAX_BOMBS,
    MAX_SMOKE, AA_MAX_SHOTS]

/-- C2 (amended): bomb explosions mutate the single process-wide shake pair
    by setting the expiry to now + SHAKE_DURATION and adding
    SHAKE_STRENGTH*0.6 to the strength, clamped to SHAKE_STRENGTH rather
    than overwriting it; an AA-burst hit on a plane leaves the strength
    unchanged (the whole-tick strength is produced by the bomb phase alone)
    and only extends the expiry to max(expiry, now + 0.22); the shake
    magnitude decays linearly to zero by the expiry timestamp. -/
theorem c2_shake_amended (now su ss n2 su0 : ℚ) (sp : ℕ → ℚ) (bs : List AABurst)
    (ps : List Plane) (t : TickIn) (st : GameState)
    (h : now < su) (h9 : ss ≤ SHAKE_STRENGTH) (h2 : su ≤ n2) :
    explosionShake now su ss =
      (now + SHAKE_DURATION, min SHAKE_STRENGTH (ss + SHAKE_STRENGTH * (6/10))) ∧
    ss ≤ (explosionShake now su ss).2 ∧
    (explosionShake now su ss).2 ≤ SHAKE_STRENGTH ∧
    burstShakeUntil now su0 = max su0 (now + 22/100) ∧
    su0 ≤ (burstsResolve now sp bs ps su0).2 ∧
    (gameTick t st).shake_strength =
      (bombsAdvance t.env (planesStep t.env t.pd st.planes st.bombs).2.1
        st.shake_until st.shake_strength).2.2 ∧
    shakeMag now su ss = ss * ((su - now) / SHAKE_DURATION) ∧
    shakeMag n2 su ss = 0 := by
  refine ⟨rfl, ?_, min_le_left _ _, rfl,
    burstsResolveAux_su_ge now sp bs 0 ps su0, rfl, ?_, ?_⟩
  · show ss ≤ min SHAKE_STRENGTH (ss + SHAKE_STRENGTH * (6/10))
    refine le_min h9 (by norm_num [SHAKE_STRENGTH])
  · rw [shakeMag, if_pos h]
  · rw [shakeMag, if_neg (not_lt.mpr h2)]

/-- C2 witness: the amended shake theorem applied at now = 0, expiry = 3/10,
    strength = 2, read out at time 1. -/
theorem c2_shake_witness :
    ((0:ℚ) < 3/10) ∧ ((2:ℚ) ≤ SHAKE_STRENGTH) ∧ ((3:ℚ)/10 ≤ 1) ∧
    (explosionShake 0 (3/10) 2 =
      (0 + SHAKE_DURATION, min SHAKE_STRENGTH (2 + SHAKE_STRENGTH * (6/10))) ∧
    (2:ℚ) ≤ (explosionShake 0 (3/10) 2).2 ∧
    (explosionShake 0 (3/10) 2).2 ≤ SHAKE_STRENGTH ∧
    burstShakeUntil 0 5 = max 5 (0 + 22/100) ∧
    (5:ℚ) ≤ (burstsResolve 0 (fun _ => 1) [] [] 5).2 ∧
    (gameTick c1in1 c1st0).shake_strength =
      (bombsAdvance c1in1.env
        (planesStep c1in1.env c1in1.pd c1st0.planes c1st0.bombs).2.1
        c1st0.shake_until c1st0.shake_strength).2.2 ∧
    shakeMag 0 (3/10) 2 = 2 * ((3/10 - 0) / SHAKE_DURATION) ∧
    shakeMag 1 (3/10) 2 = 0) :=
  ⟨by norm_num, by norm_num [SHAKE_STRENGTH], by norm_num,
    c2_shake_amended 0 (3/10) 2 1 5 (fun _ => 1) [] [] c1in1 c1st0
      (by norm_num) (by norm_num [SHAKE_STRENGTH]) (by norm_num)⟩

/-- C3 counterexample: the claim says the simulated-time interval between
    consecutive shots of one battery always lies inside the jittered range
    [AA_SPAWN_RATE*0.8, AA_SPAWN_RATE*1.3]. In this three-tick trace every
    jitter draw is 3/2, inside the range, but the second fire is deferred
    because the global shot count sits at the cap when the battery comes
    armed, so consecutive fires happen at times 0 and 3, an interval of 3
    seconds that exceeds AA_SPAWN_RATE*1.3 = 39/25. -/
theorem c3_interval_exceeds_range :
    batteryFires [(0, 0, 3/2), (3/2, 6, 3/2), (3, 0, 3/2)] 0 = [0, 3] ∧
    (∀ t ∈ [((0:ℚ), (0:ℕ), (3:ℚ)/2), (3/2, 6, 3/2), (3, 0, 3/2)],
       AA_SPAWN_RATE * (4/5) ≤ t.2.2 ∧ t.2.2 ≤ AA_SPAWN_RATE * (13/10)) ∧
    ¬((3:ℚ) - 0 ≤ AA_SPAWN_RATE * (13/10)) := by
  norm_num [batteryFires, batteryStep, AA_MAX_SHOTS, AA_SPAWN_RATE]

/-- C3 (amended): over any battery trace whose jitter draws are at least
    AA_SPAWN_RATE*0.8, consecutive fire times of one battery are separated
    by at least AA_SPAWN_RATE*0.8 (the interval has no upper bound, since
    firing can be deferred by the shot cap or tick timing); every fire
    happens at a tick whose global active-shot count is below AA_MAX_SHOTS;
    a firing battery is re-armed to now plus its fresh draw; and a battery
    never fires while the count is at the cap. -/
theorem c3_battery_amended (ticks : List (ℚ × ℕ × ℚ)) (nf0 now u : ℚ)
    (cnt : ℕ) (nf : ℚ) (n2 u2 f2 : ℚ) (c2 : ℕ)
    (hu : ∀ t ∈ ticks, AA_SPAWN_RATE * (4/5) ≤ t.2.2)
    (hf : (batteryStep now u cnt nf).1 = true)
    (hcap : AA_MAX_SHOTS ≤ c2) :
    List.Chain' (fun a b => a + AA_SPAWN_RATE * (4/5) ≤ b)
      (batteryFires ticks nf0) ∧
    (∀ x ∈ batteryFires ticks nf0,
       ∃ t ∈ ticks, t.1 = x ∧ t.2.1 < AA_MAX_SHOTS) ∧
    (batteryStep now u cnt nf).2 = now + u ∧
    batteryStep n2 u2 c2 f2 = (false, f2) := by
  refine ⟨batteryFires_chain ticks nf0 hu, batteryFires_below_cap ticks nf0,
    batteryStep_fired_rearm now u cnt nf hf, ?_⟩
  rw [batteryStep, if_neg]
  intro hc
  omega

/-- C3 witness: the amended battery theorem applied to a two-tick trace with
    draws 3/2, a firing step at time 0, and a capped count of 6. -/
theorem c3_battery_witness :
    (∀ t ∈ [((0:ℚ), (0:ℕ), (3:ℚ)/2), (2, 0, 3/2)],
       AA_SPAWN_RATE * (4/5) ≤ t.2.2) ∧
    (batteryStep 0 (3/2) 0 0).1 = true ∧
    AA_MAX_SHOTS ≤ 6 ∧
    (List.Chain' (fun a b => a + AA_SPAWN_RATE * (4/5) ≤ b)
      (batteryFires [(0, 0, 3/2), (2, 0, 3/2)] 0) ∧
    (∀ x ∈ batteryFires [(0, 0, 3/2), (2, 0, 3/2)] 0,
       ∃ t ∈ [((0:ℚ), (0:ℕ), (3:ℚ)/2), (2, 0, 3/2)],
         t.1 = x ∧ t.2.1 < AA_MAX_SHOTS) ∧
    (batteryStep 0 (3/2) 0 0).2 = 0 + 3/2 ∧
    batteryStep 1 (3/2) 6 0 = (false, 0)) :=
  ⟨by norm_num [AA_SPAWN_RATE], by norm_num [batteryStep, AA_MAX_SHOTS],
    by norm_num [AA_MAX_SHOTS],
    c3_battery_amended [(0, 0, 3/2), (2, 0, 3/2)] 0 0 (3/2) 0 0 1 (3/2) 0 6
      (by norm_num [AA_SPAWN_RATE])
      (by norm_num [batteryStep, AA_MAX_SHOTS])
      (by norm_num [AA_MAX_SHOTS])⟩

/-- C4: over every tick sequence the active bomb count never exceeds
    MAX_BOMBS = 30, and a bomb-creation request arriving at full capacity is
    a silent no-op that changes neither the plane nor the pool. -/
theorem c4_bomb_capacity (ts : List TickIn) (st : GameState) (e : Env)
    (d : PlaneDraws) (p : Plane) (bombs : List Bomb)
    (h : st.bombs.length ≤ MAX_BOMBS) (hfull : MAX_BOMBS ≤ bombs.length) :
    (runTicks ts st).bombs.length ≤ MAX_BOMBS ∧
    planeBomb e d p bombs = (p, bombs) ∧
    MAX_BOMBS = 30 :=
  ⟨runTicks_bombs_le ts st h, planeBomb_full e d p bombs hfull, rfl⟩

/-- C4 witness: the capacity theorem applied to the empty trace from a state
    with no bombs, and to a creation request against a 30-bomb pool. -/
theorem c4_bomb_capacity_witness :
    c1st0.bombs.length ≤ MAX_BOMBS ∧
    MAX_BOMBS ≤ (List.replicate 30 ({ x := 0, y := 0, vy := 0 } : Bomb)).length ∧
    ((runTicks [] c1st0).bombs.length ≤ MAX_BOMBS ∧
    planeBomb c1in1.env cdraws c1plane
        (List.replicate 30 ({ x := 0, y := 0, vy := 0 } : Bomb)) =
      (c1plane, List.replicate 30 ({ x := 0, y := 0, vy := 0 } : Bomb)) ∧
    MAX_BOMBS = 30) :=
  ⟨by decide, by decide,
    c4_bomb_capacity [] c1st0 c1in1.env cdraws c1plane
      (List.replicate 30 ({ x := 0, y := 0, vy := 0 } : Bomb))
      (by decide) (by decide)⟩

/-- C5: the flying-entity pool size is constant: the construction loop
    creates exactly MAX_PLANES = 9 planes for any sprite count, and no tick
    sequence ever changes the length of the plane list - wrap-around and
    the post-death recycle mutate planes in place. -/
theorem c5_plane_pool_constant :
    (∀ (n : ℕ) (dims : ℕ → ℚ × ℚ) (d : ℕ → InitDraws) (sw now0 : ℚ),
       (initPlanes n dims d sw now0).length = MAX_PLANES) ∧
    (∀ (ts : List TickIn) (st : GameState),
       (runTicks ts st).planes.length = st.planes.length) ∧
    MAX_PLANES = 9 := by
  refine ⟨?_, fun ts st => runTicks_planes_length ts st, rfl⟩
  intro n dims d sw now0
  simp only [initPlanes, List.length_map, List.length_range, MAX_PLANES]
  omega

/-- C6 counterexample: the claim says an entity killed once cannot be killed
    again within its 2-second grace period, even across overlapping bursts.
    Concrete trace on a 200-pixel-tall viewport: the plane is killed by a
    burst at time 0 (grace until time 2), falls past the recycle margin by
    time 19/10, where the recycle resets invuln_until to 0, and a second
    burst at its respawn position kills it again at time 19/10 - strictly
    inside the grace period of the first kill. -/
theorem c6_rekill_within_grace :
    c6p1.dying = true ∧ c6p1.invuln_until = 2 ∧
    c6p3.dying = false ∧ c6p3.invuln_until = 0 ∧
    c6p4.dying = true ∧ ((19:ℚ)/10) < c6p1.invuln_until := by
  norm_num [c6p4, c6p3, c6p2, c6p1, c6p0, c6b1, c6b2, cdraws, burstsResolve,
    burstsResolveAux, tryKill, killPlane, dist2, planeCx, planeCy, hitWindow,
    planeStepP, planeMoved, planeFall, recyclePlane, planeBomb, planeWrap,
    GRAVITY, MAX_BOMBS]

/-- C6 (amended): the burst hit test kills only planes that are
    simultaneously non-dying, past their invulnerability timestamp and
    within squared distance radius^2 of an in-window burst center; a killed
    plane is marked dying with grace now + 2, and while a plane remains
    dying no burst resolve can touch it - but the off-screen recycle resets
    invuln_until to 0, so an entity recycled within the 2-second grace can
    be killed again inside that interval. -/
theorem c6_kill_conditions (now : ℚ) (sp : ℕ → ℚ) (bs : List AABurst)
    (ps : List Plane) (su : ℚ) (i : ℕ) (p : Plane) (s2 n2 : ℚ) (q : Plane)
    (hp : ps[i]? = some p) (hd : p.dying = true) :
    (burstsResolve now sp bs ps su).1[i]? = some p ∧
    (∀ j : ℕ,
      (burstsResolve now sp bs ps su).1[j]? = ps[j]? ∨
      ∃ r s b, b ∈ bs ∧ now - b.start ≤ hitWindow ∧ ps[j]? = some r ∧
        r.dying = false ∧ r.invuln_until ≤ now ∧
        dist2 b r ≤ b.radius * b.radius ∧
        (burstsResolve now sp bs ps su).1[j]? = some (killPlane now s r)) ∧
    (killPlane n2 s2 q).dying = true ∧
    (killPlane n2 s2 q).invuln_until = n2 + 2 :=
  ⟨burstsResolve_dying_stable now sp bs ps su i p hp hd,
    fun j => burstsResolveAux_get now sp bs 0 ps su j, rfl, rfl⟩

/-- C6 witness: the amended kill-condition theorem applied to a singleton
    plane list holding a dying plane. -/
theorem c6_kill_witness :
    ([c6p1][0]? = some c6p1) ∧ (c6p1.dying = true) ∧
    ((burstsResolve 0 (fun _ => 1) [c6b1] [c6p1] 0).1[0]? = some c6p1 ∧
    (∀ j : ℕ,
      (burstsResolve 0 (fun _ => 1) [c6b1] [c6p1] 0).1[j]? = [c6p1][j]? ∨
      ∃ r s b, b ∈ [c6b1] ∧ (0:ℚ) - b.start ≤ hitWindow ∧ [c6p1][j]? = some r ∧
        r.dying = false ∧ r.invuln_until ≤ 0 ∧
        dist2 b r ≤ b.radius * b.radius ∧
        (burstsResolve 0 (fun _ => 1) [c6b1] [c6p1] 0).1[j]? = some (killPlane 0 s r)) ∧
    (killPlane 7 3 c6p0).dying = true ∧
    (killPlane 7 3 c6p0).invuln_until = 7 + 2) :=
  ⟨by simp, by norm_num [c6p1, c6p0, c6b1, burstsResolve, burstsResolveAux,
      tryKill, killPlane, dist2, planeCx, planeCy, hitWindow],
    c6_kill_conditions 0 (fun _ => 1) [c6b1] [c6p1] 0 0 c6p1 3 7 c6p0
      (by simp)
      (by norm_num [c6p1, c6p0, c6b1, burstsResolve, burstsResolveAux,
        tryKill, killPlane, dist2, planeCx, planeCy, hitWindow])⟩

/-- C7: the smoke pool update truncates to the most recent MAX_SMOKE = 220
    entries; in particular, when 300 particles spawned within one tick are
    appended and all survive the alpha filter, the resulting pool is
    exactly the trailing 220 of the stepped new particles - the 220
    most-recently-created ones - and in general the pool length after any
    update never exceeds MAX_SMOKE. -/
theorem c7_smoke_truncation (dt : ℚ) (d : ℕ → ℚ × ℚ) (olds news : List Smoke)
    (h300 : news.length = 300)
    (hsurv : ∀ s ∈ smokeStepAll dt d olds.length news, (6:ℚ) < s.a) :
    smokesUpdate dt d (olds ++ news) =
      lastN MAX_SMOKE (smokeStepAll dt d olds.length news) ∧
    (smokesUpdate dt d (olds ++ news)).length = MAX_SMOKE ∧
    (∀ ss : List Smoke, (smokesUpdate dt d ss).length ≤ MAX_SMOKE) ∧
    MAX_SMOKE = 220 := by
  have hstep : smokeStepAll dt d 0 (olds ++ news) =
      smokeStepAll dt d 0 olds ++ smokeStepAll dt d olds.length news := by
    simpa using smokeStepAll_append dt d olds 0 news
  have hfilter : (smokeStepAll dt d olds.length news).filter
      (fun s => decide ((6:ℚ) < s.a)) = smokeStepAll dt d olds.length news :=
    List.filter_eq_self.mpr (fun a ha => decide_eq_true (hsurv a ha))
  have hlen : (smokeStepAll dt d olds.length news).length = 300 := by
    rw [smokeStepAll_length, h300]
  have hmain : smokesUpdate dt d (olds ++ news) =
      lastN MAX_SMOKE (smokeStepAll dt d olds.length news) := by
    rw [smokesUpdate, hstep, List.filter_append, hfilter]
    exact lastN_append_right _ _ _ (by rw [hlen]; norm_num [MAX_SMOKE])
  refine ⟨hmain, ?_, fun ss => smokesUpdate_length_le dt d ss, rfl⟩
  rw [hmain]
  exact lastN_length_of_le _ _ (by rw [hlen]; norm_num [MAX_SMOKE])

/-- C7 witness: the truncation theorem applied to an empty pool receiving
    300 identical fresh particles with alpha 200, stepped with draw pair
    (16, 160) at dt = 1/100, all of which stay above the alpha floor. -/
theorem c7_smoke_witness :
    (List.replicate 300 ({ x := 0, y := 0, r := 5, vy := -16, a := 200 } : Smoke)).length = 300 ∧
    (∀ s ∈ smokeStepAll (1/100) (fun _ => ((16:ℚ), (160:ℚ)))
        ([] : List Smoke).length
        (List.replicate 300 ({ x := 0, y := 0, r := 5, vy := -16, a := 200 } : Smoke)),
      (6:ℚ) < s.a) ∧
    (smokesUpdate (1/100) (fun _ => ((16:ℚ), (160:ℚ)))
        (([] : List Smoke) ++ List.replicate 300
          ({ x := 0, y := 0, r := 5, vy := -16, a := 200 } : Smoke)) =
      lastN MAX_SMOKE (smokeStepAll (1/100) (fun _ => ((16:ℚ), (160:ℚ)))
        ([] : List Smoke).length
        (List.replicate 300 ({ x := 0, y := 0, r := 5, vy := -16, a := 200 } : Smoke)))) ∧
    (smokesUpdate (1/100) (fun _ => ((16:ℚ), (160:ℚ)))
        (([] : List Smoke) ++ List.replicate 300
          ({ x := 0, y := 0, r := 5, vy := -16, a := 200 } : Smoke))).length = MAX_SMOKE ∧
    (∀ ss : List Smoke,
      (smokesUpdate (1/100) (fun _ => ((16:ℚ), (160:ℚ))) ss).length ≤ MAX_SMOKE) ∧
    MAX_SMOKE = 220 :=
  ⟨by rw [List.length_replicate],
    by
      intro s hs
      rw [smokeStepAll_replicate] at hs
      have h2 := List.eq_of_mem_replicate hs
      rw [h2]
      norm_num [smokeStep],
    c7_smoke_truncation (1/100) (fun _ => ((16:ℚ), (160:ℚ))) []
      (List.replicate 300 ({ x := 0, y := 0, r := 5, vy := -16, a := 200 } : Smoke))
      (by rw [List.length_replicate])
      (by
        intro s hs
        rw [smokeStepAll_replicate] at hs
        have h2 := List.eq_of_mem_replicate hs
        rw [h2]
        norm_num [smokeStep])⟩

/-- C8: once the overlay is parked and baked, a tick with no resize is the
    identity on the whole logo state - the cached composite, the parked
    flag and the overlay position are all unchanged, so compositing never
    runs again after the bake and the draw step keeps using the cached
    backdrop. -/
theorem c8_baked_idempotent (sw : ℤ) (now : ℚ) (st : LogoState) (c : ℤ × ℤ)
    (h1 : st.parked = true) (h2 : st.using_baked = true)
    (h3 : st.bg_logo = some c) :
    logoTick sw now st = st ∧ usesBakedBackdrop st = true := by
  constructor
  · simp [logoTick, h1]
  · simp [usesBakedBackdrop, h2, h3]

/-- C8 witness: the idempotence theorem applied to the baked state c8st at
    an arbitrary later time. -/
theorem c8_baked_witness :
    c8st.parked = true ∧ c8st.using_baked = true ∧
    c8st.bg_logo = some (640, 360) ∧
    (logoTick 1280 20 c8st = c8st ∧ usesBakedBackdrop c8st = true) :=
  ⟨rfl, rfl, rfl, c8_baked_idempotent 1280 20 c8st (640, 360) rfl rfl rfl⟩

/-- C9: a resize arriving mid-slide preserves the show time, the animation
    start timestamp, the active flag and the parked flag; the tick that
    follows keeps the original animation start timestamp (the 10-second
    delay is not re-run and the slide is not restarted) and places the
    overlay center at the eased interpolation between the start and center
    anchors recomputed from the new viewport dimensions, at the same
    progress value the slide had before the resize. -/
theorem c9_resize_mid_slide (sw sh hcard : ℤ) (st : LogoState) (now : ℚ)
    (h1 : st.parked = false) (h2 : st.active = true) (h3 : st.show_time ≤ now)
    (h4 : (now - st.anim_start) / LOGO_SLIDE_DUR < 1) :
    (logoResize sw sh hcard st).show_time = st.show_time ∧
    (logoResize sw sh hcard st).anim_start = st.anim_start ∧
    (logoResize sw sh hcard st).active = st.active ∧
    (logoResize sw sh hcard st).parked = st.parked ∧
    (logoTick sw now (logoResize sw sh hcard st)).anim_start = st.anim_start ∧
    (logoTick sw now (logoResize sw sh hcard st)).show_time = st.show_time ∧
    (logoTick sw now (logoResize sw sh hcard st)).parked = false ∧
    (logoTick sw now (logoResize sw sh hcard st)).center =
      (pyDiv sw 2
      , pyInt (((sh + pyDiv hcard 2 + 20 : ℤ) : ℚ)
          + (((pyDiv sh 2 : ℤ) : ℚ) - ((sh + pyDiv hcard 2 + 20 : ℤ) : ℚ))
            * (1 - (1 - (now - st.anim_start) / LOGO_SLIDE_DUR) ^ 3))) := by
  have h5 : ¬(1 ≤ (now - st.anim_start) / LOGO_SLIDE_DUR) := not_le.mpr h4
  refine ⟨rfl, rfl, rfl, by simp [logoResize, h1], ?_, ?_, ?_, ?_⟩ <;>
    simp [logoTick, logoResize, logoTrigger, h1, h2, h3, h5]

/-- C9 witness: the resize theorem applied to the mid-slide state c9st at
    time 107/10, halfway through its 1.4-second slide. -/
theorem c9_resize_witness :
    c9st.parked = false ∧ c9st.active = true ∧
    c9st.show_time ≤ 107/10 ∧
    ((107:ℚ)/10 - c9st.anim_start) / LOGO_SLIDE_DUR < 1 ∧
    ((logoResize 800 600 100 c9st).show_time = c9st.show_time ∧
    (logoResize 800 600 100 c9st).anim_start = c9st.anim_start ∧
    (logoResize 800 600 100 c9st).active = c9st.active ∧
    (logoResize 800 600 100 c9st).parked = c9st.parked ∧
    (logoTick 800 (107/10) (logoResize 800 600 100 c9st)).anim_start = c9st.anim_start ∧
    (logoTick 800 (107/10) (logoResize 800 600 100 c9st)).show_time = c9st.show_time ∧
    (logoTick 800 (107/10) (logoResize 800 600 100 c9st)).parked = false ∧
    (logoTick 800 (107/10) (logoResize 800 600 100 c9st)).center =
      (pyDiv 800 2
      , pyInt (((600 + pyDiv 100 2 + 20 : ℤ) : ℚ)
          + (((pyDiv 600 2 : ℤ) : ℚ) - ((600 + pyDiv 100 2 + 20 : ℤ) : ℚ))
            * (1 - (1 - ((107:ℚ)/10 - c9st.anim_start) / LOGO_SLIDE_DUR) ^ 3)))) :=
  ⟨rfl, rfl, by norm_num [c9st], by norm_num [c9st, LOGO_SLIDE_DUR],
    c9_resize_mid_slide 800 600 100 c9st (107/10) rfl rfl
      (by norm_num [c9st]) (by norm_num [c9st, LOGO_SLIDE_DUR])⟩

/-- C10: the plane horizontal speed is only ever damped: a kill multiplies
    vx by 0.65, the per-tick plane step (including fall, recycle, bomb drop
    and wrap) leaves vx unchanged while the recycle resets the listed
    fields, and over any tick sequence the plane in slot i carries vx equal
    to its initial vx times 0.65^k for some number of kills k, a factor
    that never exceeds 1 - so the absolute horizontal speed never
    increases over the run. -/
theorem c10_vx_never_increases :
    (∀ (now s : ℚ) (p : Plane), (killPlane now s p).vx = p.vx * (13/20)) ∧
    (∀ (e : Env) (d : PlaneDraws) (p : Plane),
       (recyclePlane e d p).vx = p.vx ∧ (recyclePlane e d p).dying = false ∧
       (recyclePlane e d p).on_fire = false ∧ (recyclePlane e d p).vy = 0 ∧
       (recyclePlane e d p).angle = 0 ∧ (recyclePlane e d p).spin = 0 ∧
       (recyclePlane e d p).invuln_until = 0 ∧ (recyclePlane e d p).y = d.lane) ∧
    (∀ (e : Env) (d : PlaneDraws) (p : Plane) (bombs : List Bomb),
       (planeStepP e d p bombs).1.vx = p.vx) ∧
    (∀ (ts : List TickIn) (st : GameState) (i : ℕ), ∃ k : ℕ,
       ((runTicks ts st).planes[i]?).map Plane.vx =
         (st.planes[i]?).map (fun p => p.vx * ((13:ℚ)/20) ^ k) ∧
       ((13:ℚ)/20) ^ k ≤ 1) := by
  refine ⟨fun now s p => rfl,
    fun e d p => ⟨rfl, rfl, rfl, rfl, rfl, rfl, rfl, rfl⟩,
    fun e d p bombs => planeStepP_vx e d p bombs,
    fun ts st i => ?_⟩
  obtain ⟨k, hk⟩ := runTicks_get_vx ts st i
  exact ⟨k, hk, pow_le_one₀ (by norm_num) (by norm_num)⟩

end WW2
